import Mathlib

/-!
A shallow embedding of the resumable harvesting controller of
`src/giz.py` (the GIZ PDF scraper).  Pure helper functions of the script
are translated into Lean functions; the per-item session loop is
translated into an explicit state-passing loop over catalog indices, with
the external world (the rendered page, the filesystem, the network and the
wall clock) supplied as explicit inputs.  Machine strings are `String`
(ASCII models of Python's unicode-aware `\d`, `\s`, `.lower()` and
`.strip()`), sizes are `Nat`, catalog indices are `Nat` inside one session
and `Int` where the script uses `-1`-based cursors, and fallible code
returns `Option`.
-/

/-- ASCII model of Python's whitespace class used by `\s` and `str.strip`. -/
def isPySpace (c : Char) : Bool :=
  c = ' ' || c = '\t' || c = '\n' || c = '\r' || c = '\x0b' || c = '\x0c'

/-- Model of Python's `str.lower()`, mapping `Char.toLower` over the string. -/
def pyLower (s : String) : String :=
  ⟨s.data.map Char.toLower⟩

/-- Model of Python's `str.strip()`: whitespace removed from both ends. -/
def pyStrip (s : String) : String :=
  ⟨((s.data.dropWhile isPySpace).reverse.dropWhile isPySpace).reverse⟩

/-- Python truthiness of an optional integer: `None` and `0` are falsy. -/
def pyTruthyNat (o : Option Nat) : Bool :=
  match o with
  | none => false
  | some n => n != 0

/-- Python's `$` anchor matches at the end of the string or just before one
trailing newline; all four date patterns end in `\d`, so anchoring is
modelled by chopping one trailing newline before matching the pattern. -/
def pyDollarChop (l : List Char) : List Char :=
  match l.getLast? with
  | some c => if c = '\n' then l.dropLast else l
  | none => l

/-- `re.match` of `^(\d{2})\.(\d{4})$` (giz.py line 31); on success returns
the replacement `f"{m.group(2)}-{m.group(1)}"` as a char list. -/
def matchMMdotYYYY (l : List Char) : Option (List Char) :=
  match l with
  | [a, b, dot, c, d, e, f] =>
    if dot = '.' && a.isDigit && b.isDigit && c.isDigit && d.isDigit
        && e.isDigit && f.isDigit then
      some [c, d, e, f, '-', a, b]
    else none
  | _ => none

/-- `re.match` of `^(\d{4})\.(\d{2})$` (giz.py line 33); on success returns
the replacement `f"{m.group(1)}-{m.group(2)}"` as a char list. -/
def matchYYYYdotMM (l : List Char) : Option (List Char) :=
  match l with
  | [a, b, c, d, dot, e, f] =>
    if dot = '.' && a.isDigit && b.isDigit && c.isDigit && d.isDigit
        && e.isDigit && f.isDigit then
      some [a, b, c, d, '-', e, f]
    else none
  | _ => none

/-- `re.match` of `^(\d{4})-(\d{2})$` (giz.py line 35). -/
def matchYYYYdashMM (l : List Char) : Bool :=
  match l with
  | [a, b, c, d, dash, e, f] =>
    dash = '-' && a.isDigit && b.isDigit && c.isDigit && d.isDigit
      && e.isDigit && f.isDigit
  | _ => false

/-- `re.match` of `^(\d{4})$` (giz.py line 37). -/
def matchYYYY (l : List Char) : Bool :=
  match l with
  | [a, b, c, d] => a.isDigit && b.isDigit && c.isDigit && d.isDigit
  | _ => false

/-- `normalize_date` (giz.py lines 29-39): the four patterns are tried in
order; the third and fourth patterns and the fallback all return the input
unchanged. -/
def normalize_date (s : String) : String :=
  let l := pyDollarChop s.data
  match matchMMdotYYYY l with
  | some y => ⟨y⟩
  | none =>
    match matchYYYYdotMM l with
    | some y => ⟨y⟩
    | none =>
      if matchYYYYdashMM l then s
      else if matchYYYY l then s
      else s

/-- Digit-string to number, as Python's `int` on a matched digit group. -/
def digitsToNat (ds : List Char) : Nat :=
  ds.foldl (fun a c => a * 10 + (c.toNat - '0'.toNat)) 0

/-- `re.search(r'(\d+)\s*KB', text, re.IGNORECASE)` attempted at one
position: a nonempty maximal digit run, then whitespace, then `KB` in any
case; returns the parsed group 1.  Backtracking the greedy `\d+` can never
help, because the character after a shortened run is a digit, which is
neither whitespace nor `K`. -/
def sizeAt (cs : List Char) : Option Nat :=
  let ds := cs.takeWhile Char.isDigit
  if ds.isEmpty then none
  else
    match (cs.drop ds.length).dropWhile isPySpace with
    | k :: b :: _ =>
      if (k = 'K' || k = 'k') && (b = 'B' || b = 'b') then
        some (digitsToNat ds)
      else none
    | _ => none

/-- `re.search` scans positions left to right (giz.py lines 233, 244). -/
def searchKB : List Char → Option Nat
  | [] => none
  | c :: rest =>
    match sizeAt (c :: rest) with
    | some n => some n
    | none => searchKB rest

/-- `re.search(r"Projektnummer: ((\d|\.)+)", text)` attempted at one
position: the literal label followed by a nonempty run of digits and dots;
returns group 1. -/
def projAt (cs : List Char) : Option (List Char) :=
  if cs.take 15 = "Projektnummer: ".data then
    let run := (cs.drop 15).takeWhile (fun c => c.isDigit || c = '.')
    if run.isEmpty then none else some run
  else none

/-- Left-to-right scan for the project-number pattern (giz.py line 210). -/
def searchProj : List Char → Option (List Char)
  | [] => none
  | c :: rest =>
    match projAt (c :: rest) with
    | some g => some g
    | none => searchProj rest

/-- giz.py lines 210-211: the identifier is regex group 1 of the
"Weitere Nummern" field, or the sentinel `"unknown"`. -/
def extractId (weitere : String) : String :=
  match searchProj weitere.data with
  | some g => ⟨g⟩
  | none => "unknown"

/-- giz.py line 214: `metadata.get("Sprache", "xx").strip()[:2].lower()`. -/
def extractLang (raw : String) : String :=
  pyLower ⟨(pyStrip raw).data.take 2⟩

/-- giz.py line 216: `f"{date}_{id}_{lang}.pdf".lower()`. -/
def mkFilename (date ident lang : String) : String :=
  pyLower (date ++ "_" ++ ident ++ "_" ++ lang ++ ".pdf")

/-- Lookup in the `metadata` dict built by giz.py lines 204-208; Python
dict assignment lets the last occurrence of a key win. -/
def dictGet (m : List (String × String)) (k : String) : Option String :=
  (m.reverse.find? (fun p => p.1 == k)).map (fun p => p.2)

/-- The normalized per-item record derived in giz.py lines 210-217. -/
structure MetaRecord where
  ident : String
  date : String
  lang : String
  filename : String
deriving DecidableEq

/-- Metadata derivation of giz.py lines 210-217 from the detail mapping.
`metadata.get("Weitere Nummern", "")` and `metadata.get("Sprache", "xx")`
degrade to defaults, but line 213 reads `metadata["Erscheinungsdatum"]`
with brackets: a mapping without that key raises `KeyError`, modelled as
`none`. -/
def extractRecord (m : List (String × String)) : Option MetaRecord :=
  let ident := extractId ((dictGet m "Weitere Nummern").getD "")
  match dictGet m "Erscheinungsdatum" with
  | none => none
  | some raw =>
    let date := normalize_date raw
    let lang := extractLang ((dictGet m "Sprache").getD "xx")
    some { ident := ident, date := date, lang := lang,
           filename := mkFilename date ident lang }

/-- One outbound anchor of a catalog item: `get_attribute("href")` may be
absent, and `inner_text()` is its visible text. -/
structure Link where
  href : Option String
  text : String
deriving DecidableEq

/-- giz.py line 228: `href.lower().endswith(".pdf")`.  (A `None` href is
rejected before this test; the empty string fails the suffix test, so
Python's string truthiness needs no separate model.) -/
def endsWithPdfLower (h : String) : Bool :=
  List.isSuffixOf ".pdf".data (pyLower h).data

/-- The link loop of giz.py lines 225-239, threading `download_url`:
every PDF href overwrites the url; only a link whose own text carries a
size sets `remote_size_bytes` and `download_link_element` and breaks. -/
def scanLinks : List Link → Option String → Option String × Option Nat × Option Link
  | [], url => (url, none, none)
  | l :: rest, url =>
    match l.href with
    | none => scanLinks rest url
    | some h =>
      if endsWithPdfLower h then
        match searchKB l.text.data with
        | some kb => (some h, some (kb * 1024), some l)
        | none => scanLinks rest (some h)
      else scanLinks rest url

/-- giz.py lines 219-248: the link loop, then the fallback of lines
242-248 that rescans the whole item text for a size when
`download_url and not remote_size_bytes`; the fallback never assigns
`download_link_element`. -/
def findDownload (links : List Link) (itemText : String) :
    Option String × Option Nat × Option Link :=
  match scanLinks links none with
  | (url, size, elem) =>
    if url.isSome && !(pyTruthyNat size) then
      match searchKB itemText.data with
      | some kb => (url, some (kb * 1024), elem)
      | none => (url, size, elem)
    else (url, size, elem)

/-- The dedup/replacement decision of giz.py lines 270-288, as a function
of the byte sizes of the existing artifacts matching `*_{id}_{lang}.pdf`
and the optional remote size.  Line 275 picks the largest existing file;
line 279 tests `if remote_size_bytes:` (Python truthiness); line 280
skips when `remote_size_bytes <= existing`; otherwise, and in the
explicit unknown-size branch of line 286, the download proceeds. -/
def shouldDownload (sizes : List Nat) (remote : Option Nat) : Bool :=
  match sizes.max? with
  | none => true
  | some existing =>
    if pyTruthyNat remote then
      if remote.getD 0 ≤ existing then false else true
    else true

/-- One entry of `failed_downloads` (giz.py lines 252-261 and 316-325). -/
structure FailEntry where
  projectNumber : String
  filename : String
  slug : String
  title : String
  date : String
  url : String
  downloadUrl : Option String
  error : String
deriving DecidableEq

/-- One entry of the `results` catalog; the session loop consults only the
`filename` field of the stored metadata mapping (giz.py lines 333, 336). -/
structure ResEntry where
  filename : String
deriving DecidableEq

/-- The branch taken by the body of the per-item loop for one catalog item,
after the restart checks.  Each constructor names the giz.py branch it
models: `noSummary` is line 195, `noDownloadUrl` line 250, `skipExisting`
the `should_download = False` path of line 282, `noLinkElement` line 294,
`fetchSuccess` lines 298-344 (carrying the metadata record to upsert and
the name of a replaced older file, if any), `fetchTimeout` lines 311-328.
Which branch an item takes is determined by the page content, the
filesystem and the network, which are external inputs to the session. -/
inductive ItemOutcome where
  | noSummary
  | noDownloadUrl (e : FailEntry)
  | skipExisting
  | noLinkElement
  | fetchSuccess (meta : ResEntry) (replaced : Option String)
  | fetchTimeout (e : FailEntry)

/-- The mutable state threaded through one session of
`scrape_with_session`: the failure ledger and result catalog (in memory,
persisted at each mutation), the session counters, the last checkpoint
written by `save_progress` this session, and the list of indices whose
"Processing report" banner was printed (giz.py line 171), which records
exactly the items that passed the resume filter. -/
structure SessState where
  failed : List FailEntry
  results : List ResEntry
  downloads : Nat
  timeouts : Nat
  checkpoint : Option Int
  log : List Nat
deriving DecidableEq

/-- The per-item loop of `scrape_with_session` (giz.py lines 165-358) over
catalog indices: `n` is `total_reports`, `fuel` the number of items still
ahead of position `idx` (the loop in the source iterates the item list, so
`runSession` supplies `fuel = n`), `start` the resume cursor,
`elapsedOver idx` whether the 45-minute wall-clock cap of
`should_restart_session` has elapsed when item `idx` is reached, and
`outcome` which branch the item body takes.  Returns the session's return
value and final state; `save_progress` is modelled by setting
`checkpoint`. -/
def sessLoop (n : Nat) (outcome : Nat → ItemOutcome) (elapsedOver : Nat → Bool)
    (start : Int) : Nat → Nat → SessState → Int × SessState
  | 0, _, st => ((n : Int) - 1, st)
  | fuel + 1, idx, st =>
    if (idx : Int) ≤ start then
      sessLoop n outcome elapsedOver start fuel (idx + 1) st
    else
      let st1 := { st with log := st.log ++ [idx] }
      if 350 ≤ st1.downloads ∨ elapsedOver idx = true then
        ((idx : Int) - 1, { st1 with checkpoint := some ((idx : Int) - 1) })
      else if 5 ≤ st1.timeouts then
        ((idx : Int) - (st1.timeouts : Int) - 1,
          { st1 with checkpoint := some ((idx : Int) - (st1.timeouts : Int) - 1) })
      else
        match outcome idx with
        | ItemOutcome.noSummary =>
          sessLoop n outcome elapsedOver start fuel (idx + 1) st1
        | ItemOutcome.noDownloadUrl e =>
          sessLoop n outcome elapsedOver start fuel (idx + 1)
            { st1 with failed := st1.failed ++ [e] }
        | ItemOutcome.skipExisting =>
          sessLoop n outcome elapsedOver start fuel (idx + 1) st1
        | ItemOutcome.noLinkElement =>
          sessLoop n outcome elapsedOver start fuel (idx + 1) st1
        | ItemOutcome.fetchTimeout e =>
          sessLoop n outcome elapsedOver start fuel (idx + 1)
            { st1 with timeouts := st1.timeouts + 1, failed := st1.failed ++ [e] }
        | ItemOutcome.fetchSuccess meta replaced =>
          let res1 := match replaced with
            | some old => st1.results.filter (fun rr => rr.filename != old)
            | none => st1.results
          let res2 := if res1.any (fun rr => rr.filename == meta.filename)
            then res1 else res1 ++ [meta]
          let d := st1.downloads + 1
          sessLoop n outcome elapsedOver start fuel (idx + 1)
            { st1 with
              timeouts := 0
              downloads := d
              results := res2
              checkpoint := if d % 10 == 0 then some (idx : Int) else st1.checkpoint }

/-- Session-start state of giz.py lines 87-96: the ledger and result
catalog loaded from disk, zero downloads, zero consecutive timeouts. -/
def initState (failed0 : List FailEntry) (results0 : List ResEntry) : SessState :=
  { failed := failed0
    results := results0
    downloads := 0
    timeouts := 0
    checkpoint := none
    log := [] }

/-- One whole call of `scrape_with_session(start_index)`: the loop starts
at index 0 with exactly `n` items ahead. -/
def runSession (n : Nat) (outcome : Nat → ItemOutcome) (elapsedOver : Nat → Bool)
    (start : Int) (failed0 : List FailEntry) (results0 : List ResEntry) :
    Int × SessState :=
  sessLoop n outcome elapsedOver start n 0 (initState failed0 results0)

/-- `load_progress` (giz.py lines 60-68): the saved cursor, or `-1`. -/
def loadProgress (saved : Option Int) : Int :=
  match saved with
  | some i => i
  | none => -1

/-- The supervisor loop of `main` (giz.py lines 369-382) over an abstract
session function, with fuel bounding the number of sessions observed: each
session's return value becomes the next start index, and the loop breaks
exactly on `last_index >= 1344`, a hardcoded constant. -/
def supervisorRun (session : Int → Int) : Nat → Int → Option Int
  | 0, _ => none
  | fuel + 1, start =>
    let last := session start
    if 1344 ≤ last then some last
    else supervisorRun session fuel last

/-- `k`-fold iteration of a session function from a start cursor. -/
def sessionIter (session : Int → Int) : Nat → Int → Int
  | 0, s => s
  | k + 1, s => sessionIter session k (session s)

/-- The supervisor loop of `main` driving the concrete session model,
threading the failure-ledger and result-catalog files from one session
into the next (each session reloads what the previous one persisted). -/
def superLoop (n : Nat) (outcome : Nat → ItemOutcome) (elapsedOver : Nat → Bool) :
    Nat → Int → List FailEntry → List ResEntry → Option Int × List FailEntry
  | 0, _, led, _ => (none, led)
  | fuel + 1, start, led, res =>
    let out := runSession n outcome elapsedOver start led res
    if 1344 ≤ out.1 then (some out.1, out.2.failed)
    else superLoop n outcome elapsedOver fuel out.1 out.2.failed out.2.results

/-! ### Helper lemmas about the date matchers -/

lemma digit_ne_dot {c : Char} (h : c.isDigit = true) : ¬ c = '.' := by
  intro hc
  rw [hc] at h
  exact absurd h (by decide)

lemma digit_ne_newline {c : Char} (h : c.isDigit = true) : ¬ c = '\n' := by
  intro hc
  rw [hc] at h
  exact absurd h (by decide)

lemma matchMMdotYYYY_shape {l y : List Char} (h : matchMMdotYYYY l = some y) :
    ∃ p q u v w x : Char, y = [p, q, u, v, '-', w, x] ∧ p.isDigit = true ∧
      q.isDigit = true ∧ u.isDigit = true ∧ v.isDigit = true ∧
      w.isDigit = true ∧ x.isDigit = true := by
  unfold matchMMdotYYYY at h
  split at h
  · split at h
    · rename_i a b dot c d e f hguard
      simp only [Bool.and_eq_true, decide_eq_true_eq] at hguard
      cases h
      exact ⟨c, d, e, f, a, b, rfl, hguard.1.1.1.2, hguard.1.1.2, hguard.1.2,
        hguard.2, hguard.1.1.1.1.1.2, hguard.1.1.1.1.2⟩
    · exact absurd h (by simp)
  · exact absurd h (by simp)

lemma matchYYYYdotMM_shape {l y : List Char} (h : matchYYYYdotMM l = some y) :
    ∃ p q u v w x : Char, y = [p, q, u, v, '-', w, x] ∧ p.isDigit = true ∧
      q.isDigit = true ∧ u.isDigit = true ∧ v.isDigit = true ∧
      w.isDigit = true ∧ x.isDigit = true := by
  unfold matchYYYYdotMM at h
  split at h
  · split at h
    · rename_i a b c d dot e f hguard
      simp only [Bool.and_eq_true, decide_eq_true_eq] at hguard
      cases h
      exact ⟨a, b, c, d, e, f, rfl, hguard.1.1.1.1.1.2, hguard.1.1.1.1.2,
        hguard.1.1.1.2, hguard.1.1.2, hguard.1.2, hguard.2⟩
    · exact absurd h (by simp)
  · exact absurd h (by simp)

lemma normalize_date_dashForm (p q u v w x : Char) (hp : p.isDigit = true)
    (hq : q.isDigit = true) (hu : u.isDigit = true) (hv : v.isDigit = true)
    (hw : w.isDigit = true) (hx : x.isDigit = true) :
    normalize_date ⟨[p, q, u, v, '-', w, x]⟩ = ⟨[p, q, u, v, '-', w, x]⟩ := by
  have hxn : ¬ x = '\n' := digit_ne_newline hx
  have hud : ¬ u = '.' := digit_ne_dot hu
  simp [normalize_date, pyDollarChop, List.getLast?, matchMMdotYYYY,
    matchYYYYdotMM, hxn, hud]

/-- C8: `normalize_date` is idempotent: applying it to its own output
changes nothing, for every input string. -/
theorem normalize_date_idempotent (s : String) :
    normalize_date (normalize_date s) = normalize_date s := by
  rcases h1 : matchMMdotYYYY (pyDollarChop s.data) with _ | y
  · rcases h2 : matchYYYYdotMM (pyDollarChop s.data) with _ | y
    · have hs : normalize_date s = s := by
        simp [normalize_date, h1, h2]
      rw [hs, hs]
    · have hs : normalize_date s = ⟨y⟩ := by
        simp [normalize_date, h1, h2]
      obtain ⟨p, q, u, v, w, x, hy, hp, hq, hu, hv, hw, hx⟩ :=
        matchYYYYdotMM_shape h2
      rw [hs, hy]
      exact normalize_date_dashForm p q u v w x hp hq hu hv hw hx
  · have hs : normalize_date s = ⟨y⟩ := by
      simp [normalize_date, h1]
    obtain ⟨p, q, u, v, w, x, hy, hp, hq, hu, hv, hw, hx⟩ :=
      matchMMdotYYYY_shape h1
    rw [hs, hy]
    exact normalize_date_dashForm p q u v w x hp hq hu hv hw hx

/-- C1 (counterexample): the claim reads "if an existing artifact is
present and the remote size is known, skip when the existing size is >=
the remote size".  With an existing artifact of 500000 bytes and a known
remote size of 0 bytes the existing size is >= the remote size, yet the
code downloads: line 279 tests `if remote_size_bytes:`, and a parsed size
of 0 is falsy in Python, so the unknown-size branch runs. -/
theorem dedup_zero_known_size_downloads :
    shouldDownload [500000] (some 0) = true ∧ (0 : Nat) ≤ 500000 :=
  ⟨rfl, by decide⟩

/-- C1 (amended): the dedup decision of giz.py lines 270-288.  With no
existing artifact the download always proceeds; with a known *positive*
remote size the download is skipped exactly when the largest existing
artifact is at least as large, and replaces the artifact exactly when the
remote is strictly larger; whenever the remote size is unknown — absent
*or parsed as zero* — the download is attempted, with or without an
existing artifact. -/
theorem dedup_policy_characterization (sizes : List Nat) (remote : Option Nat) :
    (sizes = [] → shouldDownload sizes remote = true)
    ∧ (remote = none → shouldDownload sizes remote = true)
    ∧ (remote = some 0 → shouldDownload sizes remote = true)
    ∧ (∀ e r : Nat, sizes.max? = some e → remote = some r → 0 < r →
        ((shouldDownload sizes remote = false ↔ r ≤ e)
          ∧ (shouldDownload sizes remote = true ↔ e < r))) := by
  refine ⟨?_, ?_, ?_, ?_⟩
  · intro hs
    simp [shouldDownload, hs]
  · intro hr
    cases hm : sizes.max? <;> simp [shouldDownload, hm, hr, pyTruthyNat]
  · intro hr
    cases hm : sizes.max? <;> simp [shouldDownload, hm, hr, pyTruthyNat]
  · intro e r hm hr hpos
    subst hr
    have hb : pyTruthyNat (some r) = true := by
      simp [pyTruthyNat]
      omega
    constructor
    · constructor
      · intro h
        by_contra hle
        simp [shouldDownload, hm, hb, if_neg (by omega : ¬ r ≤ e)] at h
      · intro h
        simp [shouldDownload, hm, hb, if_pos h]
    · constructor
      · intro h
        by_contra hlt
        simp [shouldDownload, hm, hb, if_pos (by omega : r ≤ e)] at h
      · intro h
        simp [shouldDownload, hm, hb, if_neg (by omega : ¬ r ≤ e)]

/-- C1 (witness): the spec's own test vector — existing size 500000 with
remote size 400000 skips, with remote size 600000 downloads to replace. -/
theorem dedup_policy_witness :
    shouldDownload [500000] (some 400000) = false
    ∧ shouldDownload [500000] (some 600000) = true :=
  ⟨((dedup_policy_characterization [500000] (some 400000)).2.2.2 500000 400000
      rfl rfl (by decide)).1.mpr (by decide),
    ((dedup_policy_characterization [500000] (some 600000)).2.2.2 500000 600000
      rfl rfl (by decide)).2.mpr (by decide)⟩

/-- C4: evaluating the link extraction of giz.py lines 219-296 at an item
whose only link has href `a.pdf` and visible text `Download` (no "<N> KB"
anywhere): a download url is found, yet `download_link_element` stays
unassigned, because lines 231-239 only record the element when the link's
own text carries a size and the fallback of lines 242-248 never assigns
it.  Line 294 (`if not download_link_element: ... continue`) then drops
the item: the second and third conjuncts run the session on such an item
and show that no failure entry is recorded and no fetch is counted. -/
theorem pdf_link_without_size_is_dropped :
    findDownload [{ href := some "a.pdf", text := "Download" }]
        "Download the report" = (some "a.pdf", none, none)
    ∧ (runSession 1 (fun _ => ItemOutcome.noLinkElement) (fun _ => false)
        (-1) [] []).2.failed = []
    ∧ (runSession 1 (fun _ => ItemOutcome.noLinkElement) (fun _ => false)
        (-1) [] []).2.downloads = 0 := by
  refine ⟨by decide, rfl, rfl⟩

/-- C6 (counterexample): a detail mapping carrying an identifier field and
a language field but no "Erscheinungsdatum" does not complete metadata
extraction — giz.py line 213 indexes `metadata["Erscheinungsdatum"]` with
brackets and raises `KeyError`, aborting the entry (and the session). -/
theorem extraction_aborts_without_date :
    extractRecord [("Weitere Nummern", "Projektnummer: 12.34"),
      ("Sprache", "Deutsch")] = none := by
  decide

/-- C6 (amended): for every detail mapping that does contain the
publication-date field, extraction completes normally, a missing
identifier field degrades to the sentinel `"unknown"`, and a missing
language field degrades to the sentinel `"xx"`; a mapping without the
date field aborts instead. -/
theorem metadata_missing_field_defaults (m : List (String × String))
    (d : String) (h : dictGet m "Erscheinungsdatum" = some d) :
    (∃ r, extractRecord m = some r)
    ∧ (dictGet m "Weitere Nummern" = none →
        ∃ r, extractRecord m = some r ∧ r.ident = "unknown")
    ∧ (dictGet m "Sprache" = none →
        ∃ r, extractRecord m = some r ∧ r.lang = "xx") := by
  have he : extractRecord m = some
      { ident := extractId ((dictGet m "Weitere Nummern").getD "")
        date := normalize_date d
        lang := extractLang ((dictGet m "Sprache").getD "xx")
        filename := mkFilename (normalize_date d)
          (extractId ((dictGet m "Weitere Nummern").getD ""))
          (extractLang ((dictGet m "Sprache").getD "xx")) } := by
    simp [extractRecord, h]
  refine ⟨⟨_, he⟩, ?_, ?_⟩
  · intro hw
    refine ⟨_, he, ?_⟩
    simp only [hw, Option.getD_none]
    decide
  · intro hl
    refine ⟨_, he, ?_⟩
    simp only [hl, Option.getD_none]
    decide

/-- C6 (witness): a mapping holding only the date field extracts with both
sentinels in place. -/
theorem metadata_missing_field_defaults_witness :
    (∃ r, extractRecord [("Erscheinungsdatum", "03.2021")] = some r
        ∧ r.ident = "unknown")
    ∧ (∃ r, extractRecord [("Erscheinungsdatum", "03.2021")] = some r
        ∧ r.lang = "xx") :=
  ⟨(metadata_missing_field_defaults [("Erscheinungsdatum", "03.2021")]
      "03.2021" rfl).2.1 rfl,
    (metadata_missing_field_defaults [("Erscheinungsdatum", "03.2021")]
      "03.2021" rfl).2.2 rfl⟩

/-! ### Helper lemmas for filename injectivity -/

lemma string_data_append (s t : String) : (s ++ t).data = s.data ++ t.data := by
  cases s
  cases t
  rfl

lemma string_eq_of_data {s t : String} (h : s.data = t.data) : s = t := by
  cases s
  cases t
  exact congrArg String.mk h

lemma underscore_split2 (a : List Char) : ∀ a' c c' : List Char, '_' ∉ a → '_' ∉ a' →
    a ++ '_' :: c = a' ++ '_' :: c' → a = a' ∧ c = c' := by
  induction a with
  | nil =>
    intro a' c c' _ ha' h
    cases a' with
    | nil => simpa using h
    | cons x t =>
      simp only [List.nil_append, List.cons_append] at h
      injection h with h1 h2
      exact absurd (h1 ▸ List.mem_cons_self x t) ha'
  | cons x t ih =>
    intro a' c c' ha ha' h
    cases a' with
    | nil =>
      simp only [List.nil_append, List.cons_append] at h
      injection h with h1 h2
      exact absurd (h1 ▸ List.mem_cons_self x t) ha
    | cons x' t' =>
      simp only [List.cons_append] at h
      injection h with h1 h2
      obtain ⟨h3, h4⟩ := ih t' c c' (fun hm => ha (List.mem_cons_of_mem x hm))
        (fun hm => ha' (List.mem_cons_of_mem x' hm)) h2
      exact ⟨by rw [h1, h3], h4⟩

lemma mkFilename_data (d i l : String) :
    (mkFilename d i l).data =
      (d.data.map Char.toLower) ++ '_' :: ((i.data.map Char.toLower)
        ++ '_' :: ((l.data.map Char.toLower) ++ ['.', 'p', 'd', 'f'])) := by
  simp [mkFilename, pyLower, string_data_append, List.map_append,
    (by decide : Char.toLower '_' = '_'),
    (by decide : ".pdf".data = ['.', 'p', 'd', 'f'])]

lemma map_toLower_of_fixed {s : String} (h : pyLower s = s) :
    s.data.map Char.toLower = s.data := congrArg String.data h

/-- C7 (counterexample): two distinct (date, identifier, language) triples
with the same derived filename — giz.py line 216 lowercases the whole
f-string, so the triples `("2021", "A", "de")` and `("2021", "a", "de")`
both derive `"2021_a_de.pdf"`.  The date reaches the filename through
`normalize_date`, which passes unrecognized inputs through unchanged, so
mixed-case components are reachable. -/
theorem filename_distinct_triples_can_collide :
    mkFilename "2021" "A" "de" = mkFilename "2021" "a" "de"
    ∧ ("2021", "A", "de") ≠ (("2021", "a", "de") : String × String × String) := by
  constructor
  · decide
  · decide

/-- C7 (amended): filename derivation is a deterministic pure function of
the (date, identifier, language) triple, and it is injective over triples
whose date and identifier contain no underscore and whose components are
unchanged by lowercasing. -/
theorem filename_deterministic_injective_on_plain
    (d1 i1 l1 d2 i2 l2 : String)
    (hd1 : '_' ∉ d1.data) (hi1 : '_' ∉ i1.data)
    (hd2 : '_' ∉ d2.data) (hi2 : '_' ∉ i2.data)
    (hld1 : pyLower d1 = d1) (hli1 : pyLower i1 = i1) (hll1 : pyLower l1 = l1)
    (hld2 : pyLower d2 = d2) (hli2 : pyLower i2 = i2) (hll2 : pyLower l2 = l2) :
    mkFilename d1 i1 l1 = mkFilename d1 i1 l1
    ∧ (mkFilename d1 i1 l1 = mkFilename d2 i2 l2 →
        d1 = d2 ∧ i1 = i2 ∧ l1 = l2) := by
  refine ⟨rfl, ?_⟩
  intro h
  have hd := congrArg String.data h
  rw [mkFilename_data, mkFilename_data, map_toLower_of_fixed hld1,
    map_toLower_of_fixed hli1, map_toLower_of_fixed hll1,
    map_toLower_of_fixed hld2, map_toLower_of_fixed hli2,
    map_toLower_of_fixed hll2] at hd
  obtain ⟨g1, g2⟩ := underscore_split2 d1.data d2.data _ _ hd1 hd2 hd
  obtain ⟨g3, g4⟩ := underscore_split2 i1.data i2.data _ _ hi1 hi2 g2
  exact ⟨string_eq_of_data g1, string_eq_of_data g3,
    string_eq_of_data (List.append_cancel_right g4)⟩

/-- C7 (witness): the injectivity theorem applied at a concrete
lowercase, underscore-free triple. -/
theorem filename_injective_witness :
    ("2021-03" : String) = "2021-03" ∧ ("12.34" : String) = "12.34"
    ∧ ("de" : String) = "de" :=
  (filename_deterministic_injective_on_plain "2021-03" "12.34" "de"
    "2021-03" "12.34" "de" (by decide) (by decide) (by decide) (by decide)
    (by decide) (by decide) (by decide) (by decide) (by decide) (by decide)).2 rfl

/-! ### Session-loop theorems -/

/-- C10: when the restart checks do not fire, an item whose listing has no
summary-URL anchor (giz.py line 195) makes the loop move on to the next
index with the state unchanged except for the printed banner: no failure
entry, no result-catalog change, no checkpoint write, and untouched
timeout streak and download counter. -/
theorem no_summary_item_leaves_no_trace (n : Nat) (outcome : Nat → ItemOutcome)
    (elapsedOver : Nat → Bool) (start : Int) (fuel idx : Nat) (st : SessState)
    (hstart : start < (idx : Int)) (hdl : st.downloads < 350)
    (hel : elapsedOver idx = false) (hto : st.timeouts < 5)
    (hout : outcome idx = ItemOutcome.noSummary) :
    sessLoop n outcome elapsedOver start (fuel + 1) idx st =
      sessLoop n outcome elapsedOver start fuel (idx + 1)
        { st with log := st.log ++ [idx] } := by
  simp only [sessLoop]
  simp [not_le.mpr hstart, hel, hout]
  rw [if_neg (by omega : ¬ 350 ≤ st.downloads),
    if_neg (by omega : ¬ 5 ≤ st.timeouts)]

/-- C10 (witness): the no-summary step evaluated at a concrete state. -/
theorem no_summary_item_witness :
    sessLoop 2 (fun _ => ItemOutcome.noSummary) (fun _ => false) (-1) 2 0
        (initState [] []) =
      sessLoop 2 (fun _ => ItemOutcome.noSummary) (fun _ => false) (-1) 1 1
        { initState [] [] with log := [0] } :=
  no_summary_item_leaves_no_trace 2 (fun _ => ItemOutcome.noSummary)
    (fun _ => false) (-1) 1 0 (initState [] []) (by decide) (by decide) rfl
    (by decide) rfl

/-- C3: when the session reaches an item at index `i` carrying a
consecutive-timeout streak of exactly 5 (and the download/time budget
check of giz.py line 174 does not fire first), the session returns at
once with resume index `i - streak - 1 = i - 6` and the checkpoint is
persisted at the same `i - 6` (giz.py lines 184-193), so the five
timed-out items, at indices `i - 5` through `i - 1`, all lie strictly
above the resume cursor and are retried, not skipped. -/
theorem timeout_streak_restart (n : Nat) (outcome : Nat → ItemOutcome)
    (elapsedOver : Nat → Bool) (start : Int) (fuel idx : Nat) (st : SessState)
    (hstart : start < (idx : Int)) (hdl : st.downloads < 350)
    (hel : elapsedOver idx = false) (hto : st.timeouts = 5) :
    sessLoop n outcome elapsedOver start (fuel + 1) idx st =
      ((idx : Int) - 6,
        { st with log := st.log ++ [idx], checkpoint := some ((idx : Int) - 6) }) := by
  obtain ⟨f, r, d, t, cp, lg⟩ := st
  simp only at hdl hto
  subst hto
  simp only [sessLoop]
  simp [not_le.mpr hstart, hel]
  rw [if_neg (by omega : ¬ 350 ≤ d)]
  norm_num
  omega

/-- C3 (witness): five consecutive timeouts pending at index 6 end the
session with checkpoint and return value 0 = 6 - 6. -/
theorem timeout_streak_restart_witness :
    sessLoop 10 (fun _ => ItemOutcome.noSummary) (fun _ => false) (-1) 3 6
        { initState [] [] with timeouts := 5 } =
      ((6 : Int) - 6,
        { initState [] [] with timeouts := 5, log := [6], checkpoint := some ((6 : Int) - 6) }) :=
  timeout_streak_restart 10 (fun _ => ItemOutcome.noSummary) (fun _ => false)
    (-1) 2 6 { initState [] [] with timeouts := 5 } (by decide) (by decide) rfl rfl

/-! ### One-step characterizations of the session loop -/

lemma sessLoop_skip_step (n : Nat) (outcome : Nat → ItemOutcome)
    (elapsedOver : Nat → Bool) (start : Int) (f idx : Nat) (st : SessState)
    (hskip : (idx : Int) ≤ start) :
    sessLoop n outcome elapsedOver start (f + 1) idx st =
      sessLoop n outcome elapsedOver start f (idx + 1) st := by
  simp only [sessLoop]
  rw [if_pos hskip]

lemma sessLoop_restart_step (n : Nat) (outcome : Nat → ItemOutcome)
    (elapsedOver : Nat → Bool) (start : Int) (f idx : Nat) (st : SessState)
    (hskip : start < (idx : Int))
    (hrest : 350 ≤ st.downloads ∨ elapsedOver idx = true) :
    sessLoop n outcome elapsedOver start (f + 1) idx st =
      ((idx : Int) - 1,
        { st with log := st.log ++ [idx], checkpoint := some ((idx : Int) - 1) }) := by
  simp only [sessLoop]
  rw [if_neg (not_le.mpr hskip), if_pos hrest]

lemma sessLoop_timeout_step (n : Nat) (outcome : Nat → ItemOutcome)
    (elapsedOver : Nat → Bool) (start : Int) (f idx : Nat) (st : SessState)
    (hskip : start < (idx : Int))
    (hrest : ¬ (350 ≤ st.downloads ∨ elapsedOver idx = true))
    (hto : 5 ≤ st.timeouts) :
    sessLoop n outcome elapsedOver start (f + 1) idx st =
      ((idx : Int) - (st.timeouts : Int) - 1,
        { st with
          log := st.log ++ [idx]
          checkpoint := some ((idx : Int) - (st.timeouts : Int) - 1) }) := by
  simp only [sessLoop]
  rw [if_neg (not_le.mpr hskip), if_neg hrest, if_pos hto]

lemma sessLoop_proc_step (n : Nat) (outcome : Nat → ItemOutcome)
    (elapsedOver : Nat → Bool) (start : Int) (f idx : Nat) (st : SessState)
    (hskip : start < (idx : Int))
    (hrest : ¬ (350 ≤ st.downloads ∨ elapsedOver idx = true))
    (hto : ¬ 5 ≤ st.timeouts) :
    ∃ st', sessLoop n outcome elapsedOver start (f + 1) idx st =
        sessLoop n outcome elapsedOver start f (idx + 1) st'
      ∧ st'.log = st.log ++ [idx]
      ∧ (∃ t, st'.failed = st.failed ++ t) := by
  cases houtc : outcome idx with
  | noSummary =>
    refine ⟨{ st with log := st.log ++ [idx] }, ?_, rfl, ⟨[], by simp⟩⟩
    simp only [sessLoop, houtc]
    rw [if_neg (not_le.mpr hskip), if_neg hrest, if_neg hto]
  | noDownloadUrl e =>
    refine ⟨{ st with log := st.log ++ [idx], failed := st.failed ++ [e] },
      ?_, rfl, ⟨[e], rfl⟩⟩
    simp only [sessLoop, houtc]
    rw [if_neg (not_le.mpr hskip), if_neg hrest, if_neg hto]
  | skipExisting =>
    refine ⟨{ st with log := st.log ++ [idx] }, ?_, rfl, ⟨[], by simp⟩⟩
    simp only [sessLoop, houtc]
    rw [if_neg (not_le.mpr hskip), if_neg hrest, if_neg hto]
  | noLinkElement =>
    refine ⟨{ st with log := st.log ++ [idx] }, ?_, rfl, ⟨[], by simp⟩⟩
    simp only [sessLoop, houtc]
    rw [if_neg (not_le.mpr hskip), if_neg hrest, if_neg hto]
  | fetchTimeout e =>
    refine ⟨{ st with
        log := st.log ++ [idx]
        timeouts := st.timeouts + 1
        failed := st.failed ++ [e] }, ?_, rfl, ⟨[e], rfl⟩⟩
    simp only [sessLoop, houtc]
    rw [if_neg (not_le.mpr hskip), if_neg hrest, if_neg hto]
  | fetchSuccess meta replaced =>
    apply Exists.intro
    constructor
    · simp only [sessLoop, houtc]
      rw [if_neg (not_le.mpr hskip), if_neg hrest, if_neg hto]
    · exact ⟨rfl, ⟨[], by simp⟩⟩

/-! ### The resume filter visits exactly the indices above the cursor -/

lemma interval_push_skip (r : Int) (idx : Nat) (h : (idx : Int) ≤ r) :
    (List.range (idx + 1)).filter (fun j : Nat => decide (r < (j : Int))) =
      (List.range idx).filter (fun j : Nat => decide (r < (j : Int))) := by
  rw [List.range_succ, List.filter_append]
  simp [not_lt.mpr h]

lemma interval_push_proc (r : Int) (idx : Nat) (h : r < (idx : Int)) :
    (List.range (idx + 1)).filter (fun j : Nat => decide (r < (j : Int))) =
      (List.range idx).filter (fun j : Nat => decide (r < (j : Int))) ++ [idx] := by
  rw [List.range_succ, List.filter_append]
  simp [h]

lemma sessLoop_log_interval (n : Nat) (outcome : Nat → ItemOutcome)
    (elapsedOver : Nat → Bool) (r : Int) :
    ∀ fuel idx st, idx + fuel = n →
      st.log = (List.range idx).filter (fun j : Nat => decide (r < (j : Int))) →
      ∃ m, idx ≤ m ∧ m ≤ n ∧
        (sessLoop n outcome elapsedOver r fuel idx st).2.log =
          (List.range m).filter (fun j : Nat => decide (r < (j : Int))) ∧
        ((sessLoop n outcome elapsedOver r fuel idx st).1 = (n : Int) - 1 → m = n) := by
  intro fuel
  induction fuel with
  | zero =>
    intro idx st hn hlog
    exact ⟨idx, le_refl idx, by omega, hlog, fun _ => by omega⟩
  | succ f ih =>
    intro idx st hn hlog
    by_cases hskip : (idx : Int) ≤ r
    · rw [sessLoop_skip_step n outcome elapsedOver r f idx st hskip]
      obtain ⟨m, hm1, hm2, hm3, hm4⟩ := ih (idx + 1) st (by omega)
        (by rw [hlog, ← interval_push_skip r idx hskip])
      exact ⟨m, by omega, hm2, hm3, hm4⟩
    · push_neg at hskip
      by_cases hrest : 350 ≤ st.downloads ∨ elapsedOver idx = true
      · rw [sessLoop_restart_step n outcome elapsedOver r f idx st hskip hrest]
        refine ⟨idx + 1, by omega, by omega, ?_, ?_⟩
        · show st.log ++ [idx] = _
          rw [hlog]
          exact (interval_push_proc r idx hskip).symm
        · intro hret
          exfalso
          have h2 : (idx : Int) - 1 = (n : Int) - 1 := hret
          omega
      · by_cases hto : 5 ≤ st.timeouts
        · rw [sessLoop_timeout_step n outcome elapsedOver r f idx st hskip hrest hto]
          refine ⟨idx + 1, by omega, by omega, ?_, ?_⟩
          · show st.log ++ [idx] = _
            rw [hlog]
            exact (interval_push_proc r idx hskip).symm
          · intro hret
            exfalso
            have h2 : (idx : Int) - (st.timeouts : Int) - 1 = (n : Int) - 1 := hret
            omega
        · obtain ⟨st', hstep, hlog', _⟩ :=
            sessLoop_proc_step n outcome elapsedOver r f idx st hskip hrest hto
          rw [hstep]
          obtain ⟨m, hm1, hm2, hm3, hm4⟩ := ih (idx + 1) st' (by omega)
            (by rw [hlog', hlog]; exact (interval_push_proc r idx hskip).symm)
          exact ⟨m, by omega, hm2, hm3, hm4⟩

/-- C2: a session started with resume index `r` prints the processing
banner (giz.py line 171, recorded in `log`) for exactly the catalog
indices in a contiguous block `r < j < m` for some session end point
`m ≤ n`: no item at an index `≤ r` is ever reprocessed, no item in the
range actually reached is skipped by the resume filter of giz.py line
167, and when the session returns the exhaustion marker
`total_reports - 1` the block covers the whole rest of the catalog. -/
theorem resume_filter_characterization (n : Nat) (outcome : Nat → ItemOutcome)
    (elapsedOver : Nat → Bool) (r : Int) (failed0 : List FailEntry)
    (results0 : List ResEntry) :
    ∃ m, m ≤ n
      ∧ ((runSession n outcome elapsedOver r failed0 results0).1 = (n : Int) - 1 → m = n)
      ∧ ∀ j : Nat, j ∈ (runSession n outcome elapsedOver r failed0 results0).2.log
          ↔ (r < (j : Int) ∧ j < m) := by
  obtain ⟨m, hm1, hm2, hm3, hm4⟩ := sessLoop_log_interval n outcome elapsedOver r
    n 0 (initState failed0 results0) (by omega) (by simp [initState])
  refine ⟨m, hm2, ?_, ?_⟩
  · intro hret
    exact hm4 hret
  · intro j
    show j ∈ (sessLoop n outcome elapsedOver r n 0 (initState failed0 results0)).2.log ↔ _
    rw [hm3]
    simp only [List.mem_filter, List.mem_range, decide_eq_true_eq]
    tauto

/-! ### The failure ledger only grows -/

lemma sessLoop_failed_mono (n : Nat) (outcome : Nat → ItemOutcome)
    (elapsedOver : Nat → Bool) (start : Int) :
    ∀ fuel idx st, ∃ t,
      (sessLoop n outcome elapsedOver start fuel idx st).2.failed = st.failed ++ t := by
  intro fuel
  induction fuel with
  | zero =>
    intro idx st
    exact ⟨[], by simp [sessLoop]⟩
  | succ f ih =>
    intro idx st
    by_cases hskip : (idx : Int) ≤ start
    · rw [sessLoop_skip_step n outcome elapsedOver start f idx st hskip]
      exact ih (idx + 1) st
    · push_neg at hskip
      by_cases hrest : 350 ≤ st.downloads ∨ elapsedOver idx = true
      · rw [sessLoop_restart_step n outcome elapsedOver start f idx st hskip hrest]
        exact ⟨[], by simp⟩
      · by_cases hto : 5 ≤ st.timeouts
        · rw [sessLoop_timeout_step n outcome elapsedOver start f idx st hskip hrest hto]
          exact ⟨[], by simp⟩
        · obtain ⟨st', hstep, _, t1, ht1⟩ :=
            sessLoop_proc_step n outcome elapsedOver start f idx st hskip hrest hto
          obtain ⟨t2, ht2⟩ := ih (idx + 1) st'
          rw [hstep]
          exact ⟨t1 ++ t2, by rw [ht2, ht1, List.append_assoc]⟩

lemma superLoop_failed_mono (n : Nat) (outcome : Nat → ItemOutcome)
    (elapsedOver : Nat → Bool) :
    ∀ fuel (start : Int) led res, ∃ t,
      (superLoop n outcome elapsedOver fuel start led res).2 = led ++ t := by
  intro fuel
  induction fuel with
  | zero =>
    intro start led res
    exact ⟨[], by simp [superLoop]⟩
  | succ f ih =>
    intro start led res
    obtain ⟨t1, ht1⟩ :=
      sessLoop_failed_mono n outcome elapsedOver start n 0 (initState led res)
    by_cases hstop : 1344 ≤ (runSession n outcome elapsedOver start led res).1
    · refine ⟨t1, ?_⟩
      simp only [superLoop]
      rw [if_pos hstop]
      exact ht1
    · obtain ⟨t2, ht2⟩ := ih (runSession n outcome elapsedOver start led res).1
        (runSession n outcome elapsedOver start led res).2.failed
        (runSession n outcome elapsedOver start led res).2.results
      refine ⟨t1 ++ t2, ?_⟩
      simp only [superLoop]
      rw [if_neg hstop, ht2]
      show (runSession n outcome elapsedOver start led res).2.failed ++ t2 = led ++ (t1 ++ t2)
      rw [show (runSession n outcome elapsedOver start led res).2.failed
          = led ++ t1 from ht1, List.append_assoc]

/-- C9: the failure ledger is monotone — any stretch of the session loop
leaves the ledger equal to what it started with plus an appended suffix
(no entry removed or mutated in place), the same holds for the ledger
file threaded through a whole multi-session run, and its length never
decreases across session restarts within one run. -/
theorem failure_ledger_monotone (n : Nat) (outcome : Nat → ItemOutcome)
    (elapsedOver : Nat → Bool) (start : Int) (fuel2 idx : Nat) (st : SessState)
    (fuel : Nat) (led : List FailEntry) (res : List ResEntry) :
    (∃ t, (sessLoop n outcome elapsedOver start fuel2 idx st).2.failed = st.failed ++ t)
    ∧ (∃ t, (superLoop n outcome elapsedOver fuel start led res).2 = led ++ t)
    ∧ led.length ≤ (superLoop n outcome elapsedOver fuel start led res).2.length := by
  obtain ⟨t2, ht2⟩ := superLoop_failed_mono n outcome elapsedOver fuel start led res
  exact ⟨sessLoop_failed_mono n outcome elapsedOver start fuel2 idx st,
    ⟨t2, ht2⟩, by rw [ht2]; simp⟩

/-! ### Run-supervisor termination -/

lemma sessionIter_succ (session : Int → Int) (k : Nat) (s : Int) :
    sessionIter session (k + 1) s = sessionIter session k (session s) := rfl

/-- C5 (counterexample): on a catalog of 3 items the session returns the
exhaustion marker `total_reports - 1 = 2`, yet the supervisor of giz.py
lines 369-382 does not terminate, because its break condition at line 373
compares against the hardcoded constant 1344 rather than the catalog's
final index: five further supervisor iterations all fail to break. -/
theorem supervisor_misses_small_catalog_exhaustion :
    (runSession 3 (fun _ => ItemOutcome.noSummary) (fun _ => false) (-1) [] []).1
      = (3 : Int) - 1
    ∧ supervisorRun
        (fun s => (runSession 3 (fun _ => ItemOutcome.noSummary) (fun _ => false) s [] []).1)
        5 (-1) = none := by
  constructor
  · rfl
  · rfl

/-- C5 (amended): the supervisor starts from the loaded checkpoint (−1
when none exists), feeds each session's returned index to the next
session as its start index, and terminates exactly when a session returns
an index at or beyond the hardcoded constant 1344 (giz.py line 373) —
which equals the catalog's final index only when the catalog holds
exactly 1345 items: within any fuel bound, the supervisor halts with
value `v` iff some session in the chain is the first to return
`v ≥ 1344`. -/
theorem supervisor_stops_exactly_at_1344 (session : Int → Int) :
    ∀ (fuel : Nat) (start v : Int),
      supervisorRun session fuel start = some v ↔
        ∃ k, 1 ≤ k ∧ k ≤ fuel ∧ sessionIter session k start = v ∧ 1344 ≤ v ∧
          ∀ j, 1 ≤ j → j < k → sessionIter session j start < 1344 := by
  intro fuel
  induction fuel with
  | zero =>
    intro start v
    constructor
    · intro h
      exact absurd h (by simp [supervisorRun])
    · rintro ⟨k, hk1, hk2, _⟩
      omega
  | succ f ih =>
    intro start v
    simp only [supervisorRun]
    by_cases hstop : 1344 ≤ session start
    · rw [if_pos hstop]
      constructor
      · intro h
        injection h with h
        exact ⟨1, le_refl 1, by omega, h, h ▸ hstop, fun j hj1 hj2 => by omega⟩
      · rintro ⟨k, hk1, hk2, hiter, hv, hmin⟩
        cases k with
        | zero => omega
        | succ k0 =>
          cases k0 with
          | zero => exact congrArg some hiter
          | succ k1 =>
            have h1 := hmin 1 (le_refl 1) (by omega)
            rw [sessionIter_succ] at h1
            exact absurd hstop (by simp [sessionIter] at h1; omega)
    · rw [if_neg hstop]
      rw [ih (session start) v]
      constructor
      · rintro ⟨k, hk1, hk2, hiter, hv, hmin⟩
        refine ⟨k + 1, by omega, by omega, hiter, hv, ?_⟩
        intro j hj1 hj2
        cases j with
        | zero => omega
        | succ j0 =>
          cases j0 with
          | zero =>
            show sessionIter session 1 start < 1344
            simpa [sessionIter] using lt_of_not_le hstop
          | succ j1 =>
            exact hmin (j1 + 1) (by omega) (by omega)
      · rintro ⟨k, hk1, hk2, hiter, hv, hmin⟩
        cases k with
        | zero => omega
        | succ k0 =>
          cases k0 with
          | zero =>
            exfalso
            apply hstop
            have hiter1 : session start = v := hiter
            omega
          | succ k1 =>
            refine ⟨k1 + 1, by omega, by omega, hiter, hv, ?_⟩
            intro j hj1 hj2
            exact hmin (j + 1) (by omega) (by omega)

/-- C5 (witness): a session function that immediately returns 2000 makes
the supervisor halt with 2000 in one iteration. -/
theorem supervisor_stops_witness :
    supervisorRun (fun _ => 2000) 1 (-1) = some 2000 :=
  (supervisor_stops_exactly_at_1344 (fun _ => 2000) 1 (-1) 2000).mpr
    ⟨1, le_refl 1, le_refl 1, rfl, by omega, fun j hj1 hj2 => by omega⟩
